import Mathlib

/-!
# golang-config: scope registry, global slot and prefixed environment lookup

A shallow embedding of `env.go` and `config.go`.

* Go pointers (`*Environment`, `*EnvironmentScope`, `*Config`) are `Option`s of
  records that carry the address they were allocated at, so that "the same
  scope" means the same object and `nil` is `none`.
* The package-level variables `Env` and `scopes`, the process environment and
  the file system are the fields of `State`; every operation takes the state
  and returns an `Outcome`: a normal return with the new state, or a Go panic
  with the state at the moment of the panic.
* The libraries the package calls (`os`, `godotenv`, `viper`, `cast`) are
  modelled by what the package relies on: `os.Stat` succeeds exactly on the
  paths present in `State.files`; `godotenv.Load` either fails (leaving the
  process environment as it was) or sets every variable of the parsed file
  that the process environment does not hold yet; a fresh `viper` with
  `SetEnvPrefix` and `AutomaticEnv` answers a lookup by reading the process
  environment at the time of the lookup.
* Strings are sequences of Unicode characters. `strings.ToUpper` and
  `strings.ToLower` map a string character by character with `unicode.ToUpper`
  and `unicode.ToLower`: ASCII letters are converted by arithmetic, every other
  character through the case tables of the Go release, which are a parameter
  (`CaseTables`) of every lookup. Theorems hold for all case tables; the closed
  examples use `goCaseExcerpt`, the entries for the two non-ASCII characters that
  occur in them.
-/

namespace GolangConfig

/-! ## Go maps with string keys -/

/-- Map read `m[k]` with the comma-ok form: `none` when the key is absent. -/
def mapGet {α : Type} (m : List (String × α)) (k : String) : Option α :=
  match m with
  | [] => none
  | (k', v) :: rest => if k' = k then some v else mapGet rest k

/-- Map write `m[k] = v`: any earlier entry for `k` is replaced. -/
def mapSet {α : Type} (m : List (String × α)) (k : String) (v : α) : List (String × α) :=
  (k, v) :: m.filter (fun p => decide (p.1 ≠ k))

/-! ## Strings -/

/-- The case tables of the Go release (`unicode.CaseRanges`), as the two maps they
define on the characters above ASCII. -/
structure CaseTables where
  upper : Char → Char
  lower : Char → Char

/-- The constant `unicode.MaxASCII`. -/
def MaxASCII : Nat := 127

/-- The function `unicode.ToUpper`: an ASCII character is converted by arithmetic
(`a`..`z` lose 32), any other character by the table. -/
def unicodeToUpper (t : CaseTables) (c : Char) : Char :=
  if c.toNat ≤ MaxASCII then c.toUpper else t.upper c

/-- The function `unicode.ToLower`: an ASCII character is converted by arithmetic
(`A`..`Z` gain 32), any other character by the table. -/
def unicodeToLower (t : CaseTables) (c : Char) : Char :=
  if c.toNat ≤ MaxASCII then c.toLower else t.lower c

/-- The function `strings.ToUpper`: `unicode.ToUpper` on every character. -/
def ToUpper (t : CaseTables) (s : String) : String :=
  String.mk (s.data.map (unicodeToUpper t))

/-- The function `strings.ToLower`: `unicode.ToLower` on every character. -/
def ToLower (t : CaseTables) (s : String) : String :=
  String.mk (s.data.map (unicodeToLower t))

/-- The long s, U+017F, whose upper case is the ASCII letter `S`. -/
def longS : Char := Char.ofNat 0x017F

/-- The Kelvin sign, U+212A, an upper-case character whose lower case is the ASCII
letter `k`. -/
def kelvin : Char := Char.ofNat 0x212A

/-- The entries of Go's case tables for the long s (upper case `S`, lower case itself)
and the Kelvin sign (lower case `k`, upper case itself). Other characters above ASCII
are left as they are, so this stands for Go's tables only on strings whose non-ASCII
characters are these two. -/
def goCaseExcerpt : CaseTables where
  upper c := if c = longS then 'S' else c
  lower c := if c = kelvin then 'k' else c

/-! ## Data model -/

/-- What `godotenv` makes of a file: the key/value map it parsed, or an error. -/
inductive DotEnvFile where
  | parsed (envMap : List (String × String))
  | invalid
  deriving DecidableEq, Repr

/-- The part of a `viper.Viper` that `createViper` touches. -/
structure Viper where
  envPrefix : String
  automaticEnvApplied : Bool
  deriving DecidableEq, Repr

/-- An allocated `Environment{viper: v}`. -/
structure Environment where
  addr : Nat
  viper : Viper
  deriving DecidableEq, Repr

/-- An allocated `EnvironmentScope{Env: e}`; the field is a `*Environment`. -/
structure EnvironmentScope where
  addr : Nat
  Env : Option Environment
  deriving DecidableEq, Repr

/-- The input record of `NewConfig`. -/
structure StartConfig where
  Prefix : String
  ConfigPath : String
  deriving DecidableEq, Repr

/-- An allocated `Config{Standard: v}`. -/
structure Config where
  addr : Nat
  Standard : Viper
  deriving DecidableEq, Repr

/-- Package variables `Env` and `scopes`, together with the process environment,
the file system and the next free address. -/
structure State where
  Env : Option Environment
  scopes : List (String × EnvironmentScope)
  environ : List (String × String)
  files : List (String × DotEnvFile)
  nextAddr : Nat
  deriving DecidableEq, Repr

/-- The state after `init()`: empty registry, `Env` is nil. -/
def initState (environ : List (String × String)) (files : List (String × DotEnvFile)) : State :=
  { Env := none, scopes := [], environ := environ, files := files, nextAddr := 0 }

/-- Result of running an operation: normal return or panic, each with the state reached. -/
inductive Outcome (α : Type) where
  | ok (val : α) (s : State)
  | panic (err : String) (s : State)
  deriving Repr

/-- The state an operation ends in, whether it returned or panicked. -/
def Outcome.state {α : Type} : Outcome α → State
  | .ok _ s => s
  | .panic _ s => s

/-- Whether the operation panicked. -/
def Outcome.panicked {α : Type} : Outcome α → Bool
  | .ok _ _ => false
  | .panic _ _ => true

/-- The returned value, when the operation returned. -/
def Outcome.value {α : Type} : Outcome α → Option α
  | .ok v _ => some v
  | .panic _ _ => none

/-! ## Library calls -/

/-- The test `os.Stat(path)` gives `err == nil`. -/
def osStat (s : State) (path : String) : Bool :=
  (mapGet s.files path).isSome

/-- One step of the loop of `godotenv.Load`: set `kv.1` unless the process
environment held it when the load started. -/
def setIfAbsent (current : List (String × String)) (env : List (String × String))
    (kv : String × String) : List (String × String) :=
  if (mapGet current kv.1).isSome then env else mapSet env kv.1 kv.2

/-- The call `godotenv.Load(path)`: an error, or the process environment after the load. -/
def godotenvLoad (s : State) (path : String) : Except String (List (String × String)) :=
  match mapGet s.files path with
  | none => .error ("open " ++ path ++ ": no such file or directory")
  | some .invalid => .error "unexpected character in variable name"
  | some (.parsed envMap) => .ok (envMap.foldl (setIfAbsent s.environ) s.environ)

/-- The call `viper.New()`, as far as this package is concerned. -/
def Viper.New : Viper := { envPrefix := "", automaticEnvApplied := false }

/-- Method `SetEnvPrefix`. -/
def Viper.SetEnvPrefix (v : Viper) (pfx : String) : Viper := { v with envPrefix := pfx }

/-- Method `AutomaticEnv`. -/
def Viper.AutomaticEnv (v : Viper) : Viper := { v with automaticEnvApplied := true }

/-- Method `mergeWithEnvPrefix`: the name of the environment variable for a key. -/
def Viper.mergeWithEnvPrefix (v : Viper) (t : CaseTables) (key : String) : String :=
  if v.envPrefix ≠ "" then ToUpper t (v.envPrefix ++ "_" ++ key) else ToUpper t key

/-- Method `getEnv`: `os.LookupEnv`, with an empty value counted as unset. -/
def Viper.getEnv (environ : List (String × String)) (name : String) : Option String :=
  match mapGet environ name with
  | some val => if val ≠ "" then some val else none
  | none => none

/-- The environment variable a lookup of `key` reads. -/
def Viper.envName (v : Viper) (t : CaseTables) (key : String) : String :=
  v.mergeWithEnvPrefix t (ToLower t key)

/-- Method `Get` on a viper that has no config file, defaults, flags or overrides:
the key is lower-cased and, under `AutomaticEnv`, looked up in the process environment. -/
def Viper.Get (v : Viper) (t : CaseTables) (environ : List (String × String))
    (key : String) : Option String :=
  if v.automaticEnvApplied then Viper.getEnv environ (v.envName t key) else none

/-- Method `GetString`: `cast.ToString` of `Get`, the empty string for nil. -/
def Viper.GetString (v : Viper) (t : CaseTables) (environ : List (String × String))
    (key : String) : String :=
  (v.Get t environ key).getD ""

/-! ## env.go and config.go -/

/-- Function `loadDotEnv`. -/
def loadDotEnv (s : State) (path : String) : Outcome Unit :=
  if path ≠ "" then
    if osStat s path then
      match godotenvLoad s path with
      | .error err => .panic err s
      | .ok environ => .ok () { s with environ := environ }
    else .ok () s
  else .ok () s

/-- Function `createViper`. -/
def createViper (pfx : String) : Viper :=
  (Viper.New.SetEnvPrefix pfx).AutomaticEnv

/-- Function `LoadEnv`: load the file, build the viper, store the new `Environment`
in the package variable `Env` and return it. -/
def LoadEnv (s : State) (pfx path : String) : Outcome (Option Environment) :=
  match loadDotEnv s path with
  | .panic err s1 => .panic err s1
  | .ok _ s1 =>
    let v := createViper pfx
    let env : Environment := { addr := s1.nextAddr, viper := v }
    .ok (some env) { s1 with Env := some env, nextAddr := s1.nextAddr + 1 }

/-- Function `LoadScopedEnv`: the returned pair is `(*EnvironmentScope, error)`. -/
def LoadScopedEnv (s : State) (key pfx path : String) :
    Outcome (Option EnvironmentScope × Option String) :=
  match mapGet s.scopes key with
  | some _ => .ok (none, some ("scope with key " ++ key ++ " was already created")) s
  | none =>
    match LoadEnv s pfx path with
    | .panic err s1 => .panic err s1
    | .ok env s1 =>
      let scope : EnvironmentScope := { addr := s1.nextAddr, Env := env }
      .ok (some scope, none)
        { s1 with scopes := mapSet s1.scopes key scope, nextAddr := s1.nextAddr + 1 }

/-- Function `Scope`. -/
def Scope (s : State) (key : String) : Outcome (Option EnvironmentScope) :=
  match mapGet s.scopes key with
  | some scope => .ok (some scope) s
  | none => .ok none s

/-- Function `NewConfig`. -/
def NewConfig (s : State) (cfg : StartConfig) : Outcome (Option Config) :=
  match loadDotEnv s cfg.ConfigPath with
  | .panic err s1 => .panic err s1
  | .ok _ s1 =>
    let config := createViper cfg.Prefix
    .ok (some { addr := s1.nextAddr, Standard := config }) { s1 with nextAddr := s1.nextAddr + 1 }

/-! ## Typed accessors -/

/-- The conversions of the `cast` library that viper's typed getters apply to the
result of `Get`. They are total: a value that does not convert gives the zero value. -/
structure Cast where
  Float64 : Type
  Time : Type
  Any : Type
  ToStringSlice : Option String → List String
  ToStringMap : Option String → List (String × Any)
  ToBool : Option String → Bool
  ToInt : Option String → Int
  ToFloat64 : Option String → Float64
  ToTime : Option String → Time
  ToDuration : Option String → Int

/-- The message of the run-time panic raised when a nil pointer is dereferenced. -/
def nilDereference : String :=
  "runtime error: invalid memory address or nil pointer dereference"

/-- Reading the field `env.viper` through a `*Environment`: a nil receiver panics. -/
def Environment.deref (env : Option Environment) : Except String Viper :=
  match env with
  | none => .error nilDereference
  | some e => .ok e.viper

/-- Method `Get`. -/
def Environment.Get (t : CaseTables) (env : Option Environment)
    (environ : List (String × String)) (key : String) : Except String (Option String) :=
  (Environment.deref env).map (fun v => v.Get t environ key)

/-- Method `GetString`. -/
def Environment.GetString (t : CaseTables) (env : Option Environment)
    (environ : List (String × String)) (key : String) : Except String String :=
  (Environment.deref env).map (fun v => v.GetString t environ key)

/-- Method `GetStringSlice`. -/
def Environment.GetStringSlice (c : Cast) (t : CaseTables) (env : Option Environment)
    (environ : List (String × String)) (key : String) : Except String (List String) :=
  (Environment.deref env).map (fun v => c.ToStringSlice (v.Get t environ key))

/-- Method `GetStringMap`. -/
def Environment.GetStringMap (c : Cast) (t : CaseTables) (env : Option Environment)
    (environ : List (String × String)) (key : String) : Except String (List (String × c.Any)) :=
  (Environment.deref env).map (fun v => c.ToStringMap (v.Get t environ key))

/-- Method `GetBool`. -/
def Environment.GetBool (c : Cast) (t : CaseTables) (env : Option Environment)
    (environ : List (String × String)) (key : String) : Except String Bool :=
  (Environment.deref env).map (fun v => c.ToBool (v.Get t environ key))

/-- Method `GetInt`. -/
def Environment.GetInt (c : Cast) (t : CaseTables) (env : Option Environment)
    (environ : List (String × String)) (key : String) : Except String Int :=
  (Environment.deref env).map (fun v => c.ToInt (v.Get t environ key))

/-- Method `GetFloat64`. -/
def Environment.GetFloat64 (c : Cast) (t : CaseTables) (env : Option Environment)
    (environ : List (String × String)) (key : String) : Except String c.Float64 :=
  (Environment.deref env).map (fun v => c.ToFloat64 (v.Get t environ key))

/-- Method `GetTime`. -/
def Environment.GetTime (c : Cast) (t : CaseTables) (env : Option Environment)
    (environ : List (String × String)) (key : String) : Except String c.Time :=
  (Environment.deref env).map (fun v => c.ToTime (v.Get t environ key))

/-- Method `GetDuration`. -/
def Environment.GetDuration (c : Cast) (t : CaseTables) (env : Option Environment)
    (environ : List (String × String)) (key : String) : Except String Int :=
  (Environment.deref env).map (fun v => c.ToDuration (v.Get t environ key))

/-- Method `Viper`. -/
def Environment.Viper (env : Option Environment) : Except String Viper :=
  Environment.deref env

/-- Whether a call ended in a panic. -/
def panics {α : Type} : Except String α → Bool
  | .error _ => true
  | .ok _ => false

/-! ## Sequences of calls -/

/-- A call of one of the public operations. -/
inductive Op where
  | loadScopedEnv (key pfx path : String)
  | scope (key : String)
  | loadEnv (pfx path : String)
  | newConfig (cfg : StartConfig)
  deriving DecidableEq, Repr

/-- The state after one call; after a recovered panic it is the state at the panic. -/
def step (s : State) : Op → State
  | .loadScopedEnv key pfx path => (LoadScopedEnv s key pfx path).state
  | .scope key => (Scope s key).state
  | .loadEnv pfx path => (LoadEnv s pfx path).state
  | .newConfig cfg => (NewConfig s cfg).state

/-- The state after a sequence of calls, first call first. -/
def run (s : State) (ops : List Op) : State :=
  ops.foldl step s

/-- The keys passed to `LoadScopedEnv` in a sequence of calls. -/
def createdKeys : List Op → List String
  | [] => []
  | .loadScopedEnv key _ _ :: rest => key :: createdKeys rest
  | _ :: rest => createdKeys rest

/-- The dotenv path a call hands to `loadDotEnv` (none for `Scope`). -/
def Op.path : Op → String
  | .loadScopedEnv _ _ path => path
  | .scope _ => ""
  | .loadEnv _ path => path
  | .newConfig cfg => cfg.ConfigPath

/-- The condition under which `loadDotEnv` panics: a non-empty path naming an
existing file that `godotenv` rejects. -/
def fatalLoad (s : State) (path : String) : Prop :=
  path ≠ "" ∧ mapGet s.files path = some DotEnvFile.invalid

instance (s : State) (path : String) : Decidable (fatalLoad s path) := by
  unfold fatalLoad; infer_instance

/-! ## The scenario of the package's tests -/

/-- The files the tests write: `env/dummy.env` and `env/invalid.env` as in
`config_test.go`, `env/scope.env` as in `env_test.go`. -/
def testFiles : List (String × DotEnvFile) :=
  [("env/dummy.env", .parsed [("MTZ_DUMMY", "DUMMY")]),
   ("env/scope.env", .parsed [("SC1_FOO", "FOO"), ("SC2_BAR", "BAR")]),
   ("env/invalid.env", .invalid)]

/-- The state after `LoadScopedEnv("key", "MTZ", "env/dummy.env")` on a fresh process. -/
def stateWithKey : State :=
  (LoadScopedEnv (initState [] testFiles) "key" "MTZ" "env/dummy.env").state

/-- The state after `LoadEnv("", "")` on a fresh process. -/
def stateUnscoped : State :=
  (LoadEnv (initState [] testFiles) "" "").state

/-- A sequence of calls taken from the tests. -/
def testCalls : List Op :=
  [.loadScopedEnv "key" "MTZ" "env/dummy.env",
   .loadEnv "" "",
   .scope "key",
   .loadScopedEnv "scope1" "SC1" "env/scope.env",
   .loadScopedEnv "scope2" "SC2" "env/scope.env",
   .newConfig { Prefix := "MTZ", ConfigPath := "env/invalid.env" }]

/-! ## Overlap of prefixes -/

/-- The variables of prefix `q` are among those of prefix `p`: the upper-cased `p`
followed by an underscore starts the upper-cased `q` followed by an underscore. -/
def covers (t : CaseTables) (p q : String) : Prop :=
  (ToUpper t p ++ "_").data <+: (ToUpper t q ++ "_").data

instance (t : CaseTables) (p q : String) : Decidable (covers t p q) := by
  unfold covers; infer_instance

/-- The state of the test of coexistent scopes: "scope1" with prefix "SC1" and "scope2"
with prefix "SC2", both loaded from `env/scope.env`. -/
def coexistentScopes : State :=
  run (initState [] testFiles)
    [.loadScopedEnv "scope1" "SC1" "env/scope.env", .loadScopedEnv "scope2" "SC2" "env/scope.env"]

/-- Two scopes loaded from `env/dummy.env`, one with prefix "MTZ" and one with none. -/
def overlappingScopes : State :=
  run (initState [] testFiles)
    [.loadScopedEnv "scope1" "MTZ" "env/dummy.env", .loadScopedEnv "scope2" "" "env/dummy.env"]

/-- The state after `LoadScopedEnv("scope1", "SC1", "")`: a scope built without a file. -/
def stateScopeNoFile : State :=
  (LoadScopedEnv (initState [] testFiles) "scope1" "SC1" "").state

/-- The field `Env` of the scope registered under `key`, nil when there is none. -/
def scopeEnv (s : State) (key : String) : Option Environment :=
  (mapGet s.scopes key).bind EnvironmentScope.Env

/-- The one-character string made of the Kelvin sign. -/
def kelvinKey : String := String.mk [kelvin]

/-- The string "SC1" with the long s in place of its first letter. -/
def longSC1 : String := String.mk [longS, 'C', '1']

/-- Two scopes loaded from `env/scope.env`, with prefixes "SC1" and `longSC1`. -/
def longSScopes : State :=
  run (initState [] testFiles)
    [.loadScopedEnv "scope1" "SC1" "env/scope.env", .loadScopedEnv "scope2" longSC1 "env/scope.env"]

/-! ## Lemmas on maps -/

theorem mapGet_filter_ne {α : Type} (m : List (String × α)) (k k' : String) (h : k' ≠ k) :
    mapGet (m.filter (fun p => decide (p.1 ≠ k))) k' = mapGet m k' := by
  induction m with
  | nil => rfl
  | cons p rest ih =>
    obtain ⟨a, v⟩ := p
    by_cases ha : a = k
    · have hak : ¬ a = k' := fun e => h (e.symm.trans ha)
      have hd : decide (a ≠ k) = false := by simp [ha]
      simp only [List.filter_cons, hd, ih, mapGet, hak, if_false, Bool.false_eq_true]
    · have hd : decide (a ≠ k) = true := by simp [ha]
      simp only [List.filter_cons, hd, ih, mapGet, if_true]

theorem mapGet_mapSet_same {α : Type} (m : List (String × α)) (k : String) (v : α) :
    mapGet (mapSet m k v) k = some v := by
  simp [mapSet, mapGet]

theorem mapGet_mapSet_other {α : Type} (m : List (String × α)) (k k' : String) (v : α)
    (h : k' ≠ k) : mapGet (mapSet m k v) k' = mapGet m k' := by
  have hk : ¬ k = k' := fun e => h e.symm
  simp only [mapSet, mapGet, hk, if_false]
  exact mapGet_filter_ne m k k' h

/-! ## Lemmas on the operations -/

/-- The three ways `loadDotEnv` can go. -/
theorem loadDotEnv_spec (s : State) (path : String) :
    (fatalLoad s path ∧ ∃ err, loadDotEnv s path = .panic err s) ∨
    ((path = "" ∨ mapGet s.files path = none) ∧ loadDotEnv s path = .ok () s) ∨
    (∃ m, path ≠ "" ∧ mapGet s.files path = some (.parsed m) ∧
      loadDotEnv s path
        = .ok () { s with environ := m.foldl (setIfAbsent s.environ) s.environ }) := by
  by_cases hp : path = ""
  · right; left
    exact ⟨Or.inl hp, by simp [loadDotEnv, hp]⟩
  · cases hf : mapGet s.files path with
    | none =>
      right; left
      exact ⟨Or.inr rfl, by simp [loadDotEnv, hp, osStat, hf]⟩
    | some f =>
      cases f with
      | invalid =>
        left
        exact ⟨⟨hp, hf⟩, _, by simp [loadDotEnv, hp, osStat, hf, godotenvLoad]; rfl⟩
      | parsed m =>
        right; right
        exact ⟨m, hp, rfl, by simp [loadDotEnv, hp, osStat, hf, godotenvLoad]⟩

/-- What `LoadEnv` does once the outcome of `loadDotEnv` is known to be a return. -/
theorem LoadEnv_of_ok (s s1 : State) (pfx path : String) (h : loadDotEnv s path = .ok () s1) :
    LoadEnv s pfx path
      = .ok (some { addr := s1.nextAddr, viper := createViper pfx })
          { s1 with Env := some { addr := s1.nextAddr, viper := createViper pfx },
                    nextAddr := s1.nextAddr + 1 } := by
  simp [LoadEnv, h]

/-- A panic of `loadDotEnv` goes through `LoadEnv` unchanged. -/
theorem LoadEnv_of_panic (s s1 : State) (pfx path err : String)
    (h : loadDotEnv s path = .panic err s1) : LoadEnv s pfx path = .panic err s1 := by
  simp [LoadEnv, h]

/-- The outcome of `LoadEnv` on a state: a panic that leaves the state alone, or a
return that changes the process environment, `Env` and the next address only. -/
theorem LoadEnv_spec (s : State) (pfx path : String) :
    (fatalLoad s path ∧ ∃ err, LoadEnv s pfx path = .panic err s) ∨
    (¬ fatalLoad s path ∧ ∃ environ,
      LoadEnv s pfx path
        = .ok (some { addr := s.nextAddr, viper := createViper pfx })
            { s with Env := some { addr := s.nextAddr, viper := createViper pfx },
                     environ := environ, nextAddr := s.nextAddr + 1 } ∧
      (loadDotEnv s path).state.environ = environ) := by
  rcases loadDotEnv_spec s path with ⟨hf, err, h⟩ | ⟨hs, h⟩ | ⟨m, hp, hm, h⟩
  · exact Or.inl ⟨hf, err, LoadEnv_of_panic s s pfx path err h⟩
  · refine Or.inr ⟨?_, s.environ, ?_, by rw [h]; rfl⟩
    · rintro ⟨hne, hinv⟩
      rcases hs with hs | hs
      · exact hne hs
      · rw [hs] at hinv; cases hinv
    · rw [LoadEnv_of_ok s s pfx path h]
  · refine Or.inr ⟨?_, m.foldl (setIfAbsent s.environ) s.environ, ?_, by rw [h]; rfl⟩
    · rintro ⟨_, hinv⟩
      rw [hm] at hinv; cases hinv
    · rw [LoadEnv_of_ok s _ pfx path h]

/-- The outcome of `LoadScopedEnv` on a key that the registry does not hold. -/
theorem LoadScopedEnv_spec (s : State) (key pfx path : String)
    (hk : mapGet s.scopes key = none) :
    (fatalLoad s path ∧ ∃ err, LoadScopedEnv s key pfx path = .panic err s) ∨
    (¬ fatalLoad s path ∧ ∃ environ,
      LoadScopedEnv s key pfx path
        = .ok (some { addr := s.nextAddr + 1,
                      Env := some { addr := s.nextAddr, viper := createViper pfx } }, none)
            { s with Env := some { addr := s.nextAddr, viper := createViper pfx },
                     scopes := mapSet s.scopes key
                       { addr := s.nextAddr + 1,
                         Env := some { addr := s.nextAddr, viper := createViper pfx } },
                     environ := environ, nextAddr := s.nextAddr + 2 } ∧
      (loadDotEnv s path).state.environ = environ) := by
  rcases LoadEnv_spec s pfx path with ⟨hf, err, h⟩ | ⟨hf, environ, h, he⟩
  · exact Or.inl ⟨hf, err, by simp [LoadScopedEnv, hk, h]⟩
  · exact Or.inr ⟨hf, environ, by simp [LoadScopedEnv, hk, h], he⟩

/-- The outcome of `NewConfig`. -/
theorem NewConfig_spec (s : State) (cfg : StartConfig) :
    (fatalLoad s cfg.ConfigPath ∧ ∃ err, NewConfig s cfg = .panic err s) ∨
    (¬ fatalLoad s cfg.ConfigPath ∧ ∃ environ,
      NewConfig s cfg
        = .ok (some { addr := s.nextAddr, Standard := createViper cfg.Prefix })
            { s with environ := environ, nextAddr := s.nextAddr + 1 } ∧
      (loadDotEnv s cfg.ConfigPath).state.environ = environ) := by
  rcases loadDotEnv_spec s cfg.ConfigPath with ⟨hf, err, h⟩ | ⟨hs, h⟩ | ⟨m, hp, hm, h⟩
  · exact Or.inl ⟨hf, err, by simp [NewConfig, h]⟩
  · refine Or.inr ⟨?_, s.environ, by simp [NewConfig, h], by rw [h]; rfl⟩
    rintro ⟨hne, hinv⟩
    rcases hs with hs | hs
    · exact hne hs
    · rw [hs] at hinv; cases hinv
  · refine Or.inr ⟨?_, m.foldl (setIfAbsent s.environ) s.environ, by simp [NewConfig, h],
      by rw [h]; rfl⟩
    rintro ⟨_, hinv⟩
    rw [hm] at hinv; cases hinv

/-- The function `Scope` returns what the registry holds and leaves the state alone. -/
theorem Scope_eq (s : State) (key : String) : Scope s key = .ok (mapGet s.scopes key) s := by
  unfold Scope
  cases mapGet s.scopes key <;> rfl

/-- One call either leaves the registry as it is or adds an entry under a key it did not hold. -/
theorem step_scopes (s : State) (op : Op) :
    (step s op).scopes = s.scopes ∨
    ∃ key sc, key ∈ createdKeys [op] ∧ mapGet s.scopes key = none ∧
      (step s op).scopes = mapSet s.scopes key sc := by
  cases op with
  | loadScopedEnv key pfx path =>
    cases hk : mapGet s.scopes key with
    | some sc => left; simp [step, LoadScopedEnv, hk, Outcome.state]
    | none =>
      rcases LoadScopedEnv_spec s key pfx path hk with ⟨_, err, h⟩ | ⟨_, environ, h, _⟩
      · left; simp [step, h, Outcome.state]
      · right
        refine ⟨key, ⟨s.nextAddr + 1, some ⟨s.nextAddr, createViper pfx⟩⟩,
          by simp [createdKeys], hk, ?_⟩
        simp only [step, h, Outcome.state]
  | scope key => left; simp [step, Scope_eq, Outcome.state]
  | loadEnv pfx path =>
    left
    rcases LoadEnv_spec s pfx path with ⟨_, err, h⟩ | ⟨_, environ, h, _⟩ <;>
      simp [step, h, Outcome.state]
  | newConfig cfg =>
    left
    rcases NewConfig_spec s cfg with ⟨_, err, h⟩ | ⟨_, environ, h, _⟩ <;>
      simp [step, h, Outcome.state]

/-- An entry of the registry survives one call. -/
theorem step_keeps_entry (s : State) (op : Op) (k : String) (sc : EnvironmentScope)
    (h : mapGet s.scopes k = some sc) : mapGet (step s op).scopes k = some sc := by
  rcases step_scopes s op with he | ⟨key, sc', _, hnone, he⟩
  · rw [he]; exact h
  · have hne : k ≠ key := by
      intro e
      rw [e, hnone] at h
      cases h
    rw [he, mapGet_mapSet_other _ _ _ _ hne]
    exact h

/-- A key that a call does not create stays absent. -/
theorem step_keeps_absent (s : State) (op : Op) (k : String)
    (h : mapGet s.scopes k = none) (hk : k ∉ createdKeys [op]) :
    mapGet (step s op).scopes k = none := by
  rcases step_scopes s op with he | ⟨key, sc', hmem, _, he⟩
  · rw [he]; exact h
  · have hne : k ≠ key := fun e => hk (e ▸ hmem)
    rw [he, mapGet_mapSet_other _ _ _ _ hne]
    exact h

/-- The keys created by a sequence are those of its head and those of its tail. -/
theorem mem_createdKeys_cons (op : Op) (ops : List Op) (k : String) :
    k ∈ createdKeys (op :: ops) ↔ k ∈ createdKeys [op] ∨ k ∈ createdKeys ops := by
  cases op <;> simp [createdKeys]

/-- A key never created stays absent along a whole sequence of calls. -/
theorem run_keeps_absent (ops : List Op) (s : State) (k : String)
    (h : mapGet s.scopes k = none) (hk : k ∉ createdKeys ops) :
    mapGet (run s ops).scopes k = none := by
  induction ops generalizing s with
  | nil => exact h
  | cons op rest ih =>
    have hsplit := (mem_createdKeys_cons op rest k).not.mp hk
    have h1 : k ∉ createdKeys [op] := fun e => hsplit (Or.inl e)
    have h2 : k ∉ createdKeys rest := fun e => hsplit (Or.inr e)
    exact ih (step s op) (step_keeps_absent s op k h h1) h2


/-! ## The scope registry -/

/-- C1: when the key is already in the registry, `LoadScopedEnv` returns a nil scope
with a non-nil error and leaves the whole state as it was: every key still maps to the
same scope, `Env` is unchanged, and the process environment is unchanged because no
file is read. -/
theorem LoadScopedEnv_duplicate_key (s : State) (k pfx path : String) (sc : EnvironmentScope)
    (h : mapGet s.scopes k = some sc) :
    LoadScopedEnv s k pfx path
        = .ok (none, some ("scope with key " ++ k ++ " was already created")) s ∧
      mapGet (LoadScopedEnv s k pfx path).state.scopes k = some sc ∧
      (∀ k', mapGet (LoadScopedEnv s k pfx path).state.scopes k' = mapGet s.scopes k') ∧
      (LoadScopedEnv s k pfx path).state.Env = s.Env ∧
      (LoadScopedEnv s k pfx path).state.environ = s.environ := by
  have he : LoadScopedEnv s k pfx path
      = .ok (none, some ("scope with key " ++ k ++ " was already created")) s := by
    simp [LoadScopedEnv, h]
  rw [he]
  exact ⟨rfl, h, fun _ => rfl, rfl, rfl⟩

/-- Witness for C1: the second `LoadScopedEnv("key", "MTZ", "env/dummy.env")` of the test. -/
theorem LoadScopedEnv_duplicate_key_witness :
    mapGet stateWithKey.scopes "key"
        = some { addr := 1, Env := some { addr := 0, viper := createViper "MTZ" } } ∧
      (LoadScopedEnv stateWithKey "key" "MTZ" "env/dummy.env"
          = .ok (none, some ("scope with key " ++ "key" ++ " was already created")) stateWithKey ∧
        mapGet (LoadScopedEnv stateWithKey "key" "MTZ" "env/dummy.env").state.scopes "key"
          = some { addr := 1, Env := some { addr := 0, viper := createViper "MTZ" } } ∧
        (∀ k', mapGet (LoadScopedEnv stateWithKey "key" "MTZ" "env/dummy.env").state.scopes k'
          = mapGet stateWithKey.scopes k') ∧
        (LoadScopedEnv stateWithKey "key" "MTZ" "env/dummy.env").state.Env = stateWithKey.Env ∧
        (LoadScopedEnv stateWithKey "key" "MTZ" "env/dummy.env").state.environ
          = stateWithKey.environ) :=
  ⟨by decide, LoadScopedEnv_duplicate_key stateWithKey "key" "MTZ" "env/dummy.env" _ (by decide)⟩

/-- C2: when the key is not in the registry and the file is missing or parses (or the
path is empty), `LoadScopedEnv` returns a non-nil scope with a nil error, a following
`Scope` with the same key returns that very scope, and `Scope` gives for every other
key what it gave before the call. -/
theorem LoadScopedEnv_fresh_key (s : State) (k pfx path : String)
    (hk : mapGet s.scopes k = none)
    (hp : path = "" ∨ mapGet s.files path = none ∨
      ∃ m, mapGet s.files path = some (DotEnvFile.parsed m)) :
    ∃ sc s', LoadScopedEnv s k pfx path = .ok (some sc, none) s' ∧
      Scope s' k = .ok (some sc) s' ∧
      ∀ k', k' ≠ k → (Scope s' k').value = (Scope s k').value := by
  have hnf : ¬ fatalLoad s path := by
    rintro ⟨hne, hinv⟩
    rcases hp with hp | hp | ⟨m, hp⟩
    · exact hne hp
    · rw [hp] at hinv; cases hinv
    · rw [hp] at hinv; cases hinv
  rcases LoadScopedEnv_spec s k pfx path hk with ⟨hf, _⟩ | ⟨_, environ, h, _⟩
  · exact absurd hf hnf
  · refine ⟨_, _, h, ?_, ?_⟩
    · rw [Scope_eq]
      simp only [mapGet_mapSet_same]
    · intro k' hne
      rw [Scope_eq, Scope_eq]
      simp only [Outcome.value, mapGet_mapSet_other _ _ _ _ hne]

/-- Witness for C2: the first `LoadScopedEnv("key", "MTZ", "env/dummy.env")` of the test. -/
theorem LoadScopedEnv_fresh_key_witness :
    mapGet (initState [] testFiles).scopes "key" = none ∧
      ∃ sc s', LoadScopedEnv (initState [] testFiles) "key" "MTZ" "env/dummy.env"
          = .ok (some sc, none) s' ∧
        Scope s' "key" = .ok (some sc) s' ∧
        ∀ k', k' ≠ "key" → (Scope s' k').value = (Scope (initState [] testFiles) k').value :=
  ⟨by decide, LoadScopedEnv_fresh_key (initState [] testFiles) "key" "MTZ" "env/dummy.env"
    (by decide) (Or.inr (Or.inr ⟨[("MTZ_DUMMY", "DUMMY")], by decide⟩))⟩

/-- C3: starting from an empty registry, after any sequence of `LoadScopedEnv`, `LoadEnv`,
`NewConfig` and `Scope` calls, `Scope(k)` returns nil for every key `k` that was never the
key of a `LoadScopedEnv` call; and `Scope` always returns, with the state it was given. -/
theorem Scope_absent_of_never_created (s : State) (ops : List Op) (k : String)
    (hs : s.scopes = []) (hk : k ∉ createdKeys ops) :
    Scope (run s ops) k = .ok none (run s ops) ∧
      ∀ (t : State) (key : String), ∃ r, Scope t key = .ok r t := by
  constructor
  · rw [Scope_eq, run_keeps_absent ops s k (by rw [hs]; rfl) hk]
  · intro t key
    exact ⟨_, Scope_eq t key⟩

/-- Witness for C3: after the calls of the tests, "other" was never created. -/
theorem Scope_absent_of_never_created_witness :
    (initState [] testFiles).scopes = [] ∧ "other" ∉ createdKeys testCalls ∧
      (Scope (run (initState [] testFiles) testCalls) "other"
          = .ok none (run (initState [] testFiles) testCalls) ∧
        ∀ (t : State) (key : String), ∃ r, Scope t key = .ok r t) :=
  ⟨rfl, by decide,
    Scope_absent_of_never_created (initState [] testFiles) testCalls "other" rfl (by decide)⟩

/-- C4: once the registry maps a key to a scope, it maps the key to that same scope
after any further sequence of `LoadScopedEnv`, `Scope`, `LoadEnv` and `NewConfig` calls:
an entry is never overwritten and never removed. -/
theorem registry_entry_preserved (s : State) (k : String) (sc : EnvironmentScope)
    (ops : List Op) (h : mapGet s.scopes k = some sc) :
    mapGet (run s ops).scopes k = some sc ∧
      Scope (run s ops) k = .ok (some sc) (run s ops) := by
  have hrun : mapGet (run s ops).scopes k = some sc := by
    induction ops generalizing s with
    | nil => exact h
    | cons op rest ih => exact ih (step s op) (step_keeps_entry s op k sc h)
  exact ⟨hrun, by rw [Scope_eq, hrun]⟩

/-- Witness for C4: the scope under "key" survives the calls of the tests, which try
the same key again. -/
theorem registry_entry_preserved_witness :
    mapGet stateWithKey.scopes "key"
        = some { addr := 1, Env := some { addr := 0, viper := createViper "MTZ" } } ∧
      (mapGet (run stateWithKey testCalls).scopes "key"
          = some { addr := 1, Env := some { addr := 0, viper := createViper "MTZ" } } ∧
        Scope (run stateWithKey testCalls) "key"
          = .ok (some { addr := 1, Env := some { addr := 0, viper := createViper "MTZ" } })
              (run stateWithKey testCalls)) :=
  ⟨by decide, registry_entry_preserved stateWithKey "key" _ testCalls (by decide)⟩

/-! ## The global slot -/

/-- C5, as stated, fails: on a fresh process, where `Env` is nil, a successful
`LoadScopedEnv("key", "MTZ", "")` leaves `Env` non-nil, holding the very `Environment`
of the new scope; and after `LoadEnv("", "")` a later successful `LoadScopedEnv` replaces
the unprefixed global `Environment`, so that `Env.GetString("dummy")` changes from the
empty string to "DUMMY". -/
theorem LoadScopedEnv_overwrites_Env :
    (initState [] testFiles).Env = none ∧
      (LoadScopedEnv (initState [] testFiles) "key" "MTZ" "").value
        = some (some { addr := 1, Env := some { addr := 0, viper := createViper "MTZ" } }, none) ∧
      (LoadScopedEnv (initState [] testFiles) "key" "MTZ" "").state.Env
        = some { addr := 0, viper := createViper "MTZ" } ∧
      stateUnscoped.Env = some { addr := 0, viper := createViper "" } ∧
      (LoadScopedEnv stateUnscoped "key" "MTZ" "env/dummy.env").value
        = some (some { addr := 2, Env := some { addr := 1, viper := createViper "MTZ" } }, none) ∧
      (LoadScopedEnv stateUnscoped "key" "MTZ" "env/dummy.env").state.Env
        = some { addr := 1, viper := createViper "MTZ" } ∧
      Environment.GetString goCaseExcerpt stateUnscoped.Env
        (LoadScopedEnv stateUnscoped "key" "MTZ" "env/dummy.env").state.environ "dummy" = .ok "" ∧
      Environment.GetString goCaseExcerpt (LoadScopedEnv stateUnscoped "key" "MTZ" "env/dummy.env").state.Env
        (LoadScopedEnv stateUnscoped "key" "MTZ" "env/dummy.env").state.environ "dummy"
        = .ok "DUMMY" := by
  refine ⟨rfl, by decide, by decide, by decide, by decide, by decide, rfl, rfl⟩

/-- C5, amended: the slot `Env` is assigned inside `LoadEnv` only, and `LoadScopedEnv`
calls `LoadEnv`. A successful `LoadScopedEnv` leaves `Env` holding the newly built
`Environment`, the one stored in the returned scope; `Scope`, `NewConfig` and a
`LoadScopedEnv` that does not return a scope (duplicate key or panic) leave `Env` as it
was. -/
theorem LoadScopedEnv_sets_Env (s s' : State) (key pfx path : String) (sc : EnvironmentScope)
    (h : LoadScopedEnv s key pfx path = .ok (some sc, none) s') :
    (s'.Env = sc.Env ∧ sc.Env = some { addr := s.nextAddr, viper := createViper pfx } ∧
        s'.Env = (LoadEnv s pfx path).state.Env) ∧
      (∀ k p q, (∀ r, (LoadScopedEnv s k p q).value ≠ some (some r, none)) →
        (LoadScopedEnv s k p q).state.Env = s.Env) ∧
      (∀ cfg, (NewConfig s cfg).state.Env = s.Env) ∧
      (∀ k, (Scope s k).state.Env = s.Env) := by
  refine ⟨?_, ?_, ?_, ?_⟩
  · cases hk : mapGet s.scopes key with
    | some old =>
      have hdup : LoadScopedEnv s key pfx path
          = .ok (none, some ("scope with key " ++ key ++ " was already created")) s := by
        simp [LoadScopedEnv, hk]
      rw [hdup] at h
      cases h
    | none =>
      rcases LoadScopedEnv_spec s key pfx path hk with ⟨_, err, he⟩ | ⟨hnf, environ, he, _⟩
      · rw [he] at h; cases h
      · rw [he] at h
        injection h with hv hs
        injection hv with hsc _
        injection hsc with hsc
        subst hsc
        subst hs
        rcases LoadEnv_spec s pfx path with ⟨hf, _⟩ | ⟨_, environ', hl, _⟩
        · exact absurd hf hnf
        · rw [hl]
          exact ⟨rfl, rfl, rfl⟩
  · intro k p q hfail
    cases hk : mapGet s.scopes k with
    | some old => simp [LoadScopedEnv, hk, Outcome.state]
    | none =>
      rcases LoadScopedEnv_spec s k p q hk with ⟨_, err, he⟩ | ⟨_, environ, he, _⟩
      · rw [he]; rfl
      · exact absurd (by rw [he]; rfl) (hfail _)
  · intro cfg
    rcases NewConfig_spec s cfg with ⟨_, err, he⟩ | ⟨_, environ, he, _⟩ <;> rw [he] <;> rfl
  · intro k
    rw [Scope_eq]; rfl

/-- Witness for the amended C5: `LoadScopedEnv("key", "MTZ", "env/dummy.env")` on a
fresh process. -/
theorem LoadScopedEnv_sets_Env_witness :
    LoadScopedEnv (initState [] testFiles) "key" "MTZ" "env/dummy.env"
        = .ok (some { addr := 1, Env := some { addr := 0, viper := createViper "MTZ" } }, none)
            stateWithKey ∧
      stateWithKey.Env = some { addr := 0, viper := createViper "MTZ" } :=
  ⟨rfl,
    (LoadScopedEnv_sets_Env (initState [] testFiles) stateWithKey "key" "MTZ" "env/dummy.env"
      { addr := 1, Env := some { addr := 0, viper := createViper "MTZ" } } rfl).1.1⟩

/-! ## Loading the dotenv file -/

/-- C8: `loadDotEnv`, and with it `LoadEnv`, `NewConfig` and `LoadScopedEnv` on a new key,
panics if and only if the path is non-empty and names an existing file that does not
parse. With an empty path or a missing file the load is skipped: nothing panics, the
process environment is unchanged and a fully built `Environment` is returned. When the
parse fails nothing is returned and the state, registry and `Env` included, is as it
was. -/
theorem loadDotEnv_fatal_iff (s : State) (pfx path : String) :
    ((loadDotEnv s path).panicked = true ↔ fatalLoad s path) ∧
      ((LoadEnv s pfx path).panicked = true ↔ fatalLoad s path) ∧
      ((NewConfig s { Prefix := pfx, ConfigPath := path }).panicked = true ↔ fatalLoad s path) ∧
      (∀ key, mapGet s.scopes key = none →
        ((LoadScopedEnv s key pfx path).panicked = true ↔ fatalLoad s path)) ∧
      (path = "" ∨ mapGet s.files path = none →
        loadDotEnv s path = .ok () s ∧
        LoadEnv s pfx path
          = .ok (some { addr := s.nextAddr, viper := createViper pfx })
              { s with Env := some { addr := s.nextAddr, viper := createViper pfx },
                       nextAddr := s.nextAddr + 1 } ∧
        NewConfig s { Prefix := pfx, ConfigPath := path }
          = .ok (some { addr := s.nextAddr, Standard := createViper pfx })
              { s with nextAddr := s.nextAddr + 1 } ∧
        ∀ key, mapGet s.scopes key = none →
          LoadScopedEnv s key pfx path
            = .ok (some { addr := s.nextAddr + 1,
                          Env := some { addr := s.nextAddr, viper := createViper pfx } }, none)
                { s with Env := some { addr := s.nextAddr, viper := createViper pfx },
                         scopes := mapSet s.scopes key
                           { addr := s.nextAddr + 1,
                             Env := some { addr := s.nextAddr, viper := createViper pfx } },
                         nextAddr := s.nextAddr + 2 }) ∧
      (fatalLoad s path →
        (LoadEnv s pfx path).value = none ∧ (LoadEnv s pfx path).state = s ∧
        (NewConfig s { Prefix := pfx, ConfigPath := path }).value = none ∧
        (NewConfig s { Prefix := pfx, ConfigPath := path }).state = s ∧
        ∀ key, (∀ r, (LoadScopedEnv s key pfx path).value ≠ some (some r, none)) ∧
          (LoadScopedEnv s key pfx path).state = s) := by
  refine ⟨?_, ?_, ?_, ?_, ?_, ?_⟩
  · rcases loadDotEnv_spec s path with ⟨hf, err, h⟩ | ⟨hs, h⟩ | ⟨m, hp, hm, h⟩
    · rw [h]; simp [Outcome.panicked, hf]
    · rw [h]
      simp only [Outcome.panicked, Bool.false_eq_true, false_iff]
      rintro ⟨hne, hinv⟩
      rcases hs with hs | hs
      · exact hne hs
      · rw [hs] at hinv; cases hinv
    · rw [h]
      simp only [Outcome.panicked, Bool.false_eq_true, false_iff]
      rintro ⟨_, hinv⟩
      rw [hm] at hinv; cases hinv
  · rcases LoadEnv_spec s pfx path with ⟨hf, err, h⟩ | ⟨hnf, environ, h, _⟩ <;>
      rw [h] <;> simp [Outcome.panicked, *]
  · rcases NewConfig_spec s { Prefix := pfx, ConfigPath := path } with
      ⟨hf, err, h⟩ | ⟨hnf, environ, h, _⟩ <;> rw [h] <;> simp [Outcome.panicked, *]
  · intro key hk
    rcases LoadScopedEnv_spec s key pfx path hk with ⟨hf, err, h⟩ | ⟨hnf, environ, h, _⟩ <;>
      rw [h] <;> simp [Outcome.panicked, *]
  · intro hskip
    have hld : loadDotEnv s path = .ok () s := by
      rcases loadDotEnv_spec s path with ⟨⟨hne, hinv⟩, _⟩ | ⟨_, h⟩ | ⟨m, hp, hm, _⟩
      · rcases hskip with hs | hs
        · exact absurd hs hne
        · rw [hs] at hinv; cases hinv
      · exact h
      · rcases hskip with hs | hs
        · exact absurd hs hp
        · rw [hs] at hm; cases hm
    have hle := LoadEnv_of_ok s s pfx path hld
    refine ⟨hld, hle, by simp [NewConfig, hld], ?_⟩
    intro key hk
    simp [LoadScopedEnv, hk, hle]
  · intro hf
    refine ⟨?_, ?_, ?_, ?_, ?_⟩
    · rcases LoadEnv_spec s pfx path with ⟨_, err, h⟩ | ⟨hnf, _⟩
      · rw [h]; rfl
      · exact absurd hf hnf
    · rcases LoadEnv_spec s pfx path with ⟨_, err, h⟩ | ⟨hnf, _⟩
      · rw [h]; rfl
      · exact absurd hf hnf
    · rcases NewConfig_spec s { Prefix := pfx, ConfigPath := path } with
        ⟨_, err, h⟩ | ⟨hnf, _⟩
      · rw [h]; rfl
      · exact absurd hf hnf
    · rcases NewConfig_spec s { Prefix := pfx, ConfigPath := path } with
        ⟨_, err, h⟩ | ⟨hnf, _⟩
      · rw [h]; rfl
      · exact absurd hf hnf
    · intro key
      cases hk : mapGet s.scopes key with
      | some old =>
        have hdup : LoadScopedEnv s key pfx path
            = .ok (none, some ("scope with key " ++ key ++ " was already created")) s := by
          simp [LoadScopedEnv, hk]
        rw [hdup]
        exact ⟨fun r hr => by simp [Outcome.value] at hr, rfl⟩
      | none =>
        rcases LoadScopedEnv_spec s key pfx path hk with ⟨_, err, h⟩ | ⟨hnf, _⟩
        · rw [h]
          exact ⟨fun r hr => by simp [Outcome.value] at hr, rfl⟩
        · exact absurd hf hnf

/-! ## Typed accessors on a nil and on a loaded `Environment` -/

/-- C10: on a nil `Environment`, which is what `Env` holds before any load, every accessor
panics, whatever the key; on a non-nil `Environment`, which is what a load that returns
gives, no accessor panics, and for a variable that is not set `Get` gives nil,
`GetString` the empty string and the typed accessors the conversion of nil. -/
theorem accessors_panic_iff_nil (c : Cast) (t : CaseTables)
    (environ : List (String × String))
    (files : List (String × DotEnvFile)) (key : String) :
    (initState environ files).Env = none ∧
      (panics (Environment.Get t none environ key) = true ∧
        panics (Environment.GetString t none environ key) = true ∧
        panics (Environment.GetStringSlice c t none environ key) = true ∧
        panics (Environment.GetStringMap c t none environ key) = true ∧
        panics (Environment.GetBool c t none environ key) = true ∧
        panics (Environment.GetInt c t none environ key) = true ∧
        panics (Environment.GetFloat64 c t none environ key) = true ∧
        panics (Environment.GetTime c t none environ key) = true ∧
        panics (Environment.GetDuration c t none environ key) = true ∧
        panics (Environment.Viper none) = true) ∧
      (∀ e : Environment,
        panics (Environment.Get t (some e) environ key) = false ∧
        panics (Environment.GetString t (some e) environ key) = false ∧
        panics (Environment.GetStringSlice c t (some e) environ key) = false ∧
        panics (Environment.GetStringMap c t (some e) environ key) = false ∧
        panics (Environment.GetBool c t (some e) environ key) = false ∧
        panics (Environment.GetInt c t (some e) environ key) = false ∧
        panics (Environment.GetFloat64 c t (some e) environ key) = false ∧
        panics (Environment.GetTime c t (some e) environ key) = false ∧
        panics (Environment.GetDuration c t (some e) environ key) = false ∧
        panics (Environment.Viper (some e)) = false) ∧
      (∀ e : Environment, mapGet environ (e.viper.envName t key) = none →
        Environment.Get t (some e) environ key = .ok none ∧
        Environment.GetString t (some e) environ key = .ok "" ∧
        Environment.GetStringSlice c t (some e) environ key = .ok (c.ToStringSlice none) ∧
        Environment.GetStringMap c t (some e) environ key = .ok (c.ToStringMap none) ∧
        Environment.GetBool c t (some e) environ key = .ok (c.ToBool none) ∧
        Environment.GetInt c t (some e) environ key = .ok (c.ToInt none) ∧
        Environment.GetFloat64 c t (some e) environ key = .ok (c.ToFloat64 none) ∧
        Environment.GetTime c t (some e) environ key = .ok (c.ToTime none) ∧
        Environment.GetDuration c t (some e) environ key = .ok (c.ToDuration none)) ∧
      (∀ (s : State) (pfx path : String), (LoadEnv s pfx path).panicked = false →
        ∃ e, (LoadEnv s pfx path).value = some (some e) ∧
          (LoadEnv s pfx path).state.Env = some e) := by
  refine ⟨rfl, ⟨rfl, rfl, rfl, rfl, rfl, rfl, rfl, rfl, rfl, rfl⟩,
    fun e => ⟨rfl, rfl, rfl, rfl, rfl, rfl, rfl, rfl, rfl, rfl⟩, ?_, ?_⟩
  · intro e hmiss
    have hget : e.viper.Get t environ key = none := by
      unfold Viper.Get Viper.getEnv
      rw [hmiss]
      split <;> rfl
    simp [Environment.Get, Environment.GetString, Environment.GetStringSlice,
      Environment.GetStringMap, Environment.GetBool, Environment.GetInt,
      Environment.GetFloat64, Environment.GetTime, Environment.GetDuration,
      Environment.deref, Except.map, Viper.GetString, hget]
  · intro s pfx path hok
    rcases LoadEnv_spec s pfx path with ⟨_, err, h⟩ | ⟨_, environ', h, _⟩
    · rw [h] at hok; cases hok
    · rw [h]; exact ⟨_, rfl, rfl⟩

/-! ## Lemmas on the case maps -/

theorem char_toNat_ofNat_small (n : Nat) (h : n < 55296) : (Char.ofNat n).toNat = n := by
  have hv : n.isValidChar := Or.inl h
  simp [Char.ofNat, hv, Char.toNat, Char.ofNatAux, UInt32.toNat]

theorem char_toUpper_toLower (c : Char) : c.toLower.toUpper = c.toUpper := by
  by_cases h : c.toNat ≥ 65 ∧ c.toNat ≤ 90
  · have h1 : c.toLower = Char.ofNat (c.toNat + 32) := by simp [Char.toLower, h]
    have h2 : (Char.ofNat (c.toNat + 32)).toNat = c.toNat + 32 :=
      char_toNat_ofNat_small _ (by omega)
    have h3 : c.toUpper = c := by
      have : ¬ (c.toNat ≥ 97 ∧ c.toNat ≤ 122) := by omega
      simp [Char.toUpper, this]
    rw [h1, h3]
    have h4 : (Char.ofNat (c.toNat + 32)).toNat ≥ 97 ∧
        (Char.ofNat (c.toNat + 32)).toNat ≤ 122 := by
      rw [h2]; omega
    have h5 : (Char.ofNat (c.toNat + 32)).toUpper
        = Char.ofNat ((Char.ofNat (c.toNat + 32)).toNat - 32) := by
      simp only [Char.toUpper]
      rw [if_pos h4]
    rw [h5, h2]
    simp
  · have h1 : c.toLower = c := by simp [Char.toLower, h]
    rw [h1]

/-- The lower case of an ASCII character is an ASCII character. -/
theorem char_toLower_ascii (c : Char) (h : c.toNat ≤ MaxASCII) : c.toLower.toNat ≤ MaxASCII := by
  unfold MaxASCII at *
  by_cases hr : c.toNat ≥ 65 ∧ c.toNat ≤ 90
  · have h1 : c.toLower = Char.ofNat (c.toNat + 32) := by simp [Char.toLower, hr]
    rw [h1, char_toNat_ofNat_small _ (by omega)]
    omega
  · have h1 : c.toLower = c := by simp [Char.toLower, hr]
    rw [h1]; exact h

/-- On an ASCII character, upper-casing the lower case is upper-casing. -/
theorem unicodeToUpper_unicodeToLower_ascii (t : CaseTables) (c : Char)
    (h : c.toNat ≤ MaxASCII) :
    unicodeToUpper t (unicodeToLower t c) = unicodeToUpper t c := by
  simp only [unicodeToUpper, unicodeToLower, h, if_true, char_toLower_ascii c h,
    char_toUpper_toLower]

theorem ToUpper_append (t : CaseTables) (a b : String) :
    ToUpper t (a ++ b) = ToUpper t a ++ ToUpper t b := by
  apply String.ext
  simp [ToUpper]

theorem ToLower_append (t : CaseTables) (a b : String) :
    ToLower t (a ++ b) = ToLower t a ++ ToLower t b := by
  apply String.ext
  simp [ToLower]

theorem ToUpper_underscore (t : CaseTables) : ToUpper t "_" = "_" := rfl

theorem ToLower_underscore (t : CaseTables) : ToLower t "_" = "_" := rfl

/-- On an ASCII string, upper-casing the lower case is upper-casing. -/
theorem ToUpper_ToLower_ascii (t : CaseTables) (s : String)
    (h : ∀ c ∈ s.data, c.toNat ≤ MaxASCII) : ToUpper t (ToLower t s) = ToUpper t s := by
  apply String.ext
  simp only [ToUpper, ToLower, List.map_map]
  apply List.map_congr_left
  intro c hc
  exact unicodeToUpper_unicodeToLower_ascii t c (h c hc)

/-- The variable read for `key` under a non-empty `pfx`. -/
theorem envName_of_ne (t : CaseTables) (pfx key : String) (h : pfx ≠ "") :
    (createViper pfx).envName t key = ToUpper t pfx ++ "_" ++ ToUpper t (ToLower t key) := by
  have hv : (createViper pfx).envPrefix = pfx := rfl
  simp only [Viper.envName, Viper.mergeWithEnvPrefix, hv, if_pos h, ToUpper_append,
    ToUpper_underscore, ne_eq, not_false_eq_true]

/-- The variable read for `key` under the empty prefix. -/
theorem envName_empty (t : CaseTables) (key : String) :
    (createViper "").envName t key = ToUpper t (ToLower t key) := by
  have hv : (createViper "").envPrefix = "" := rfl
  simp only [Viper.envName, Viper.mergeWithEnvPrefix, hv, ne_eq, not_true_eq_false, if_false]

/-! ## Key resolution -/

/-- C7, as stated, fails on keys and prefixes that upper-casing the lower case does not
give back. The key made of the Kelvin sign under prefix "MTZ" reads `MTZ_K` (and returns
its value), not "MTZ_" followed by the Kelvin sign; under the empty prefix it reads `K`;
and under the prefix made of the Kelvin sign the key "dummy" reads another variable than
the key made of that prefix, "_" and "dummy" does under the empty prefix. -/
theorem key_resolution_fails_on_kelvin :
    ((createViper "MTZ").envName goCaseExcerpt kelvinKey = "MTZ_K" ∧
        ToUpper goCaseExcerpt "MTZ" ++ "_" ++ ToUpper goCaseExcerpt kelvinKey
          = "MTZ_" ++ kelvinKey ∧
        (createViper "MTZ").envName goCaseExcerpt kelvinKey
          ≠ ToUpper goCaseExcerpt "MTZ" ++ "_" ++ ToUpper goCaseExcerpt kelvinKey ∧
        (createViper "MTZ").GetString goCaseExcerpt [("MTZ_K", "k")] kelvinKey = "k") ∧
      ((createViper "").envName goCaseExcerpt kelvinKey = "K" ∧
        (createViper "").envName goCaseExcerpt kelvinKey ≠ ToUpper goCaseExcerpt kelvinKey) ∧
      (kelvinKey ≠ "" ∧
        (createViper kelvinKey).GetString goCaseExcerpt [("K_DUMMY", "x")] "dummy" = "" ∧
        (createViper "").GetString goCaseExcerpt [("K_DUMMY", "x")]
          (kelvinKey ++ "_" ++ "dummy") = "x") := by
  refine ⟨⟨by decide, by decide, by decide, by decide⟩, ⟨by decide, by decide⟩,
    ⟨by decide, by decide, by decide⟩⟩

/-- C7, amended: a store built with prefix `P` reads, for the logical key `K`, the
variable named by upper-casing `P`, "_" and the lower-cased `K`: `ToUpper P ++ "_" ++
ToUpper (ToLower K)` when `P` is not empty and `ToUpper (ToLower K)` when it is. This is
`ToUpper P ++ "_" ++ ToUpper K`, respectively `ToUpper K`, whenever upper-casing the
lower-cased `K` gives `ToUpper K`, as for every ASCII key. For a non-empty `P` with
`ToUpper (ToLower P) = ToUpper P`, as for every ASCII prefix, the lookup of `K` under `P`
equals the lookup of `P ++ "_" ++ K` under the empty prefix. `LoadEnv` and `NewConfig` with
prefix `P` return exactly such a store. With `MTZ_DUMMY=DUMMY`, prefix "MTZ" and key
"dummy", and the empty prefix and key "mtz_dummy", both give "DUMMY". -/
theorem key_resolution (t : CaseTables) (P K : String) (environ : List (String × String)) :
    (P ≠ "" → (createViper P).envName t K = ToUpper t P ++ "_" ++ ToUpper t (ToLower t K)) ∧
      (P = "" → (createViper P).envName t K = ToUpper t (ToLower t K)) ∧
      (ToUpper t (ToLower t K) = ToUpper t K →
        (P ≠ "" → (createViper P).envName t K = ToUpper t P ++ "_" ++ ToUpper t K) ∧
        (P = "" → (createViper P).envName t K = ToUpper t K)) ∧
      ((∀ c ∈ K.data, c.toNat ≤ MaxASCII) → ToUpper t (ToLower t K) = ToUpper t K) ∧
      ((∀ c ∈ P.data, c.toNat ≤ MaxASCII) → ToUpper t (ToLower t P) = ToUpper t P) ∧
      (createViper P).Get t environ K = Viper.getEnv environ ((createViper P).envName t K) ∧
      (P ≠ "" → ToUpper t (ToLower t P) = ToUpper t P →
        (createViper P).Get t environ K = (createViper "").Get t environ (P ++ "_" ++ K) ∧
        (createViper P).GetString t environ K
          = (createViper "").GetString t environ (P ++ "_" ++ K) ∧
        ∀ a b, Environment.GetString t (some { addr := a, viper := createViper P }) environ K
          = Environment.GetString t (some { addr := b, viper := createViper "" }) environ
              (P ++ "_" ++ K)) ∧
      (∀ (s : State) (path : String), (LoadEnv s P path).panicked = false →
        ∃ a, (LoadEnv s P path).value = some (some { addr := a, viper := createViper P })) ∧
      (∀ (s : State) (path : String),
        (NewConfig s { Prefix := P, ConfigPath := path }).panicked = false →
        ∃ a, (NewConfig s { Prefix := P, ConfigPath := path }).value
          = some (some { addr := a, Standard := createViper P })) ∧
      (createViper "MTZ").GetString t [("MTZ_DUMMY", "DUMMY")] "dummy" = "DUMMY" ∧
      (createViper "").GetString t [("MTZ_DUMMY", "DUMMY")] "mtz_dummy" = "DUMMY" := by
  have hname : P ≠ "" → ToUpper t (ToLower t P) = ToUpper t P →
      (createViper P).envName t K = (createViper "").envName t (P ++ "_" ++ K) := by
    intro hP hPP
    rw [envName_of_ne t P K hP, envName_empty, ToLower_append, ToLower_append,
      ToUpper_append, ToUpper_append, ToLower_underscore, ToUpper_underscore, hPP]
  have hget : P ≠ "" → ToUpper t (ToLower t P) = ToUpper t P →
      (createViper P).Get t environ K = (createViper "").Get t environ (P ++ "_" ++ K) := by
    intro hP hPP
    have h1 : (createViper P).automaticEnvApplied = true := rfl
    have h2 : (createViper "").automaticEnvApplied = true := rfl
    simp only [Viper.Get, h1, h2, if_true, hname hP hPP]
  have hempty : P = "" → (createViper P).envName t K = ToUpper t (ToLower t K) := by
    intro hP
    subst hP
    exact envName_empty t K
  refine ⟨envName_of_ne t P K, hempty, ?_, ToUpper_ToLower_ascii t K,
    ToUpper_ToLower_ascii t P, rfl, ?_, ?_, ?_, rfl, rfl⟩
  · intro hK
    constructor
    · intro hP
      rw [envName_of_ne t P K hP, hK]
    · intro hP
      rw [hempty hP, hK]
  · intro hP hPP
    refine ⟨hget hP hPP, ?_, ?_⟩
    · simp only [Viper.GetString, hget hP hPP]
    · intro a b
      simp only [Environment.GetString, Environment.deref, Except.map, Viper.GetString,
        hget hP hPP]
  · intro s path hok
    rcases LoadEnv_spec s P path with ⟨_, err, h⟩ | ⟨_, environ', h, _⟩
    · rw [h] at hok; cases hok
    · rw [h]; exact ⟨_, rfl⟩
  · intro s path hok
    rcases NewConfig_spec s { Prefix := P, ConfigPath := path } with
      ⟨_, err, h⟩ | ⟨_, environ', h, _⟩
    · rw [h] at hok; cases hok
    · rw [h]; exact ⟨_, rfl⟩


/-! ## Lemmas on overlapping prefixes -/

theorem char_toUpper_eq_underscore (c : Char) : c.toUpper = '_' ↔ c = '_' := by
  by_cases h : c.toNat ≥ 97 ∧ c.toNat ≤ 122
  · have h1 : c.toUpper = Char.ofNat (c.toNat - 32) := by simp [Char.toUpper, h]
    have h2 : (Char.ofNat (c.toNat - 32)).toNat = c.toNat - 32 :=
      char_toNat_ofNat_small _ (by omega)
    have h95 : ('_' : Char).toNat = 95 := by decide
    constructor
    · intro hu
      rw [h1] at hu
      rw [hu] at h2
      omega
    · intro hc
      subst hc
      omega
  · have h1 : c.toUpper = c := by simp [Char.toUpper, h]
    rw [h1]

/-- Two lists without `c` that agree up to a first `c` are equal. -/
theorem eq_of_snoc_prefix_snoc (c : Char) (a b : List Char) (ha : c ∉ a) (hb : c ∉ b)
    (h : a ++ [c] <+: b ++ [c]) : a = b := by
  induction a generalizing b with
  | nil =>
    cases b with
    | nil => rfl
    | cons y b' =>
      simp only [List.nil_append, List.cons_append, List.cons_prefix_cons] at h
      exact absurd (h.1 ▸ List.mem_cons_self y b') hb
  | cons x a' ih =>
    cases b with
    | nil =>
      simp only [List.cons_append, List.nil_append, List.cons_prefix_cons] at h
      exact absurd (h.1 ▸ List.mem_cons_self x a') ha
    | cons y b' =>
      simp only [List.cons_append, List.cons_prefix_cons] at h
      have hrest := ih b' (fun m => ha (List.mem_cons_of_mem x m))
        (fun m => hb (List.mem_cons_of_mem y m)) h.2
      rw [h.1, hrest]

/-- Upper-casing an ASCII string adds no underscore. -/
theorem underscore_mem_ToUpper_ascii (t : CaseTables) (p : String)
    (hp : ∀ c ∈ p.data, c.toNat ≤ MaxASCII) (h : '_' ∈ (ToUpper t p).data) :
    '_' ∈ p.data := by
  simp only [ToUpper, List.mem_map] at h
  obtain ⟨c, hc, hu⟩ := h
  have hu' : c.toUpper = '_' := by
    simpa only [unicodeToUpper, hp c hc, if_true] using hu
  rw [(char_toUpper_eq_underscore c).mp hu'] at hc
  exact hc

/-- The characters of the variable name for a key under a non-empty prefix. -/
theorem envName_data (t : CaseTables) (p k : String) (h : p ≠ "") :
    ((createViper p).envName t k).data
      = (ToUpper t p ++ "_").data ++ (ToUpper t (ToLower t k)).data := by
  rw [envName_of_ne t p k h]
  simp

/-- Prefixes of which neither covers the other never read a common variable. -/
theorem envName_ne_of_not_covers (t : CaseTables) (p1 p2 : String) (h1 : p1 ≠ "")
    (h2 : p2 ≠ "") (hc1 : ¬ covers t p1 p2) (hc2 : ¬ covers t p2 p1) (k1 k2 : String) :
    (createViper p1).envName t k1 ≠ (createViper p2).envName t k2 := by
  intro heq
  have hd := congrArg String.data heq
  rw [envName_data t p1 k1 h1, envName_data t p2 k2 h2] at hd
  have hpre1 : (ToUpper t p1 ++ "_").data <+:
      (ToUpper t p2 ++ "_").data ++ (ToUpper t (ToLower t k2)).data := ⟨_, hd⟩
  have hpre2 : (ToUpper t p2 ++ "_").data <+:
      (ToUpper t p2 ++ "_").data ++ (ToUpper t (ToLower t k2)).data := ⟨_, rfl⟩
  rcases List.prefix_or_prefix_of_prefix hpre1 hpre2 with h | h
  · exact hc1 h
  · exact hc2 h

/-- Upper-cased prefixes without underscore that differ do not cover each other. -/
theorem not_covers_of_no_underscore (t : CaseTables) (p1 p2 : String)
    (hu1 : '_' ∉ (ToUpper t p1).data) (hu2 : '_' ∉ (ToUpper t p2).data)
    (hne : ToUpper t p1 ≠ ToUpper t p2) : ¬ covers t p1 p2 := by
  intro hc
  have hc' : (ToUpper t p1).data ++ ['_'] <+: (ToUpper t p2).data ++ ['_'] := by
    simpa [covers] using hc
  exact hne (String.ext (eq_of_snoc_prefix_snoc '_' _ _ hu1 hu2 hc'))

/-! ## Isolation of scopes -/

/-- C6, as stated, fails: different prefixes can read the same variable. The scopes with
prefixes "MTZ" and "" loaded from `env/dummy.env` both return the value of `MTZ_DUMMY`
(for the keys "dummy" and "mtz_dummy"); prefixes "A" and "A_B" both read `A_B_C`;
prefixes "sc1" and "SC1", which differ in case only, read the same variables; and so do
"SC1" and the same with a long s for its first letter, whose scopes both return "FOO"
for "foo". -/
theorem different_prefixes_share_variable :
    (("MTZ" : String) ≠ "" ∧
        (createViper "MTZ").envName goCaseExcerpt "dummy"
          = (createViper "").envName goCaseExcerpt "mtz_dummy" ∧
        Environment.GetString goCaseExcerpt (scopeEnv overlappingScopes "scope1")
          overlappingScopes.environ "dummy" = .ok "DUMMY" ∧
        Environment.GetString goCaseExcerpt (scopeEnv overlappingScopes "scope2")
          overlappingScopes.environ "mtz_dummy" = .ok "DUMMY") ∧
      (("A" : String) ≠ "A_B" ∧
        (createViper "A").envName goCaseExcerpt "b_c"
          = (createViper "A_B").envName goCaseExcerpt "c") ∧
      (("sc1" : String) ≠ "SC1" ∧
        (createViper "sc1").envName goCaseExcerpt "foo"
          = (createViper "SC1").envName goCaseExcerpt "foo") ∧
      (("SC1" : String) ≠ longSC1 ∧
        (createViper "SC1").envName goCaseExcerpt "foo"
          = (createViper longSC1).envName goCaseExcerpt "foo" ∧
        Environment.GetString goCaseExcerpt (scopeEnv longSScopes "scope1")
          longSScopes.environ "foo" = .ok "FOO" ∧
        Environment.GetString goCaseExcerpt (scopeEnv longSScopes "scope2")
          longSScopes.environ "foo" = .ok "FOO") := by
  refine ⟨⟨by decide, by decide, rfl, rfl⟩, ⟨by decide, by decide⟩, ⟨by decide, by decide⟩,
    ⟨by decide, by decide, rfl, rfl⟩⟩

/-- C6, amended: two scopes with non-empty prefixes read disjoint sets of variables
whenever neither upper-cased prefix followed by "_" starts the other followed by "_";
this is so whenever the upper-cased prefixes contain no underscore and differ, and so
for ASCII prefixes that contain no underscore and differ after upper-casing. In the
test, prefixes "SC1" and "SC2" on a file with `SC1_FOO=FOO` and `SC2_BAR=BAR` give scope1
foo = "FOO", bar = "" and scope2 bar = "BAR", foo = "". -/
theorem scope_isolation (t : CaseTables) (p1 p2 : String) (h1 : p1 ≠ "") (h2 : p2 ≠ "") :
    (¬ covers t p1 p2 → ¬ covers t p2 p1 →
        ∀ k1 k2, (createViper p1).envName t k1 ≠ (createViper p2).envName t k2) ∧
      ('_' ∉ (ToUpper t p1).data → '_' ∉ (ToUpper t p2).data → ToUpper t p1 ≠ ToUpper t p2 →
        ∀ k1 k2, (createViper p1).envName t k1 ≠ (createViper p2).envName t k2) ∧
      ((∀ c ∈ p1.data, c.toNat ≤ MaxASCII) → (∀ c ∈ p2.data, c.toNat ≤ MaxASCII) →
        '_' ∉ p1.data → '_' ∉ p2.data → ToUpper t p1 ≠ ToUpper t p2 →
        ∀ k1 k2, (createViper p1).envName t k1 ≠ (createViper p2).envName t k2) ∧
      (Environment.GetString t (scopeEnv coexistentScopes "scope1")
          coexistentScopes.environ "foo" = .ok "FOO" ∧
        Environment.GetString t (scopeEnv coexistentScopes "scope1")
          coexistentScopes.environ "bar" = .ok "" ∧
        Environment.GetString t (scopeEnv coexistentScopes "scope2")
          coexistentScopes.environ "bar" = .ok "BAR" ∧
        Environment.GetString t (scopeEnv coexistentScopes "scope2")
          coexistentScopes.environ "foo" = .ok "") := by
  have hup : '_' ∉ (ToUpper t p1).data → '_' ∉ (ToUpper t p2).data →
      ToUpper t p1 ≠ ToUpper t p2 →
      ∀ k1 k2, (createViper p1).envName t k1 ≠ (createViper p2).envName t k2 := by
    intro hu1 hu2 hne
    exact envName_ne_of_not_covers t p1 p2 h1 h2
      (not_covers_of_no_underscore t p1 p2 hu1 hu2 hne)
      (not_covers_of_no_underscore t p2 p1 hu2 hu1 hne.symm)
  refine ⟨envName_ne_of_not_covers t p1 p2 h1 h2, hup, ?_, ⟨rfl, rfl, rfl, rfl⟩⟩
  intro ha1 ha2 u1 u2 hne
  exact hup (fun m => u1 (underscore_mem_ToUpper_ascii t p1 ha1 m))
    (fun m => u2 (underscore_mem_ToUpper_ascii t p2 ha2 m)) hne

/-- Witness for the amended C6: the prefixes "SC1" and "SC2" of the test. -/
theorem scope_isolation_witness :
    ("SC1" : String) ≠ "" ∧ ("SC2" : String) ≠ "" ∧
      ¬ covers goCaseExcerpt "SC1" "SC2" ∧ ¬ covers goCaseExcerpt "SC2" "SC1" ∧
      ∀ k1 k2, (createViper "SC1").envName goCaseExcerpt k1
        ≠ (createViper "SC2").envName goCaseExcerpt k2 :=
  ⟨by decide, by decide, by decide, by decide,
    (scope_isolation goCaseExcerpt "SC1" "SC2" (by decide) (by decide)).1
      (by decide) (by decide)⟩

/-! ## Later loads and existing environments -/

/-- Loading a parsed file leaves a variable alone when the process environment already
holds it or the file does not define it. -/
theorem mapGet_foldl_setIfAbsent (cur : List (String × String)) (n : String)
    (m env : List (String × String))
    (h : mapGet cur n ≠ none ∨ mapGet m n = none) :
    mapGet (m.foldl (setIfAbsent cur) env) n = mapGet env n := by
  induction m generalizing env with
  | nil => rfl
  | cons kv rest ih =>
    obtain ⟨k, v⟩ := kv
    have hrest : mapGet cur n ≠ none ∨ mapGet rest n = none := by
      rcases h with h | h
      · exact Or.inl h
      · right
        by_cases hk : k = n
        · simp [mapGet, hk] at h
        · simpa [mapGet, hk] using h
    rw [List.foldl_cons, ih _ hrest]
    unfold setIfAbsent
    by_cases hc : (mapGet cur k).isSome = true
    · simp only [hc, if_true]
    · simp only [hc, if_false, Bool.false_eq_true]
      have hne : n ≠ k := by
        intro e
        subst e
        rcases h with h | h
        · apply hc
          cases hv : mapGet cur n with
          | none => exact absurd hv h
          | some _ => rfl
        · simp [mapGet] at h
      exact mapGet_mapSet_other env k n v hne

/-- The process environment after `loadDotEnv`. -/
theorem loadDotEnv_environ (s : State) (path : String) :
    (loadDotEnv s path).state.environ = s.environ ∨
    ∃ m, path ≠ "" ∧ mapGet s.files path = some (.parsed m) ∧
      (loadDotEnv s path).state.environ = m.foldl (setIfAbsent s.environ) s.environ := by
  rcases loadDotEnv_spec s path with ⟨_, err, h⟩ | ⟨_, h⟩ | ⟨m, hp, hm, h⟩
  · left; rw [h]; rfl
  · left; rw [h]; rfl
  · right; exact ⟨m, hp, hm, by rw [h]; rfl⟩

/-- The process environment after a call is the one it had, or the one `loadDotEnv`
leaves for the path of the call. -/
theorem step_environ (s : State) (op : Op) :
    (step s op).environ = s.environ ∨
    (step s op).environ = (loadDotEnv s op.path).state.environ := by
  cases op with
  | loadScopedEnv key pfx path =>
    cases hk : mapGet s.scopes key with
    | some sc => left; simp [step, LoadScopedEnv, hk, Outcome.state]
    | none =>
      rcases LoadScopedEnv_spec s key pfx path hk with ⟨_, err, h⟩ | ⟨_, environ, h, he⟩
      · left; simp [step, h, Outcome.state]
      · right; rw [Op.path, he]; simp only [step, h, Outcome.state]
  | scope key => left; simp [step, Scope_eq, Outcome.state]
  | loadEnv pfx path =>
    rcases LoadEnv_spec s pfx path with ⟨_, err, h⟩ | ⟨_, environ, h, he⟩
    · left; simp [step, h, Outcome.state]
    · right; rw [Op.path, he]; simp only [step, h, Outcome.state]
  | newConfig cfg =>
    rcases NewConfig_spec s cfg with ⟨_, err, h⟩ | ⟨_, environ, h, he⟩
    · left; simp [step, h, Outcome.state]
    · right; rw [Op.path, he]; simp only [step, h, Outcome.state]

/-- C9, as stated, fails: the scope built by `LoadScopedEnv("scope1", "SC1", "")` returns
the empty string for "foo"; after a later `LoadEnv`, `LoadScopedEnv` or `NewConfig` that
loads `env/scope.env`, which defines `SC1_FOO`, the same `Environment` returns "FOO". -/
theorem later_load_changes_lookup :
    scopeEnv stateScopeNoFile "scope1" = some { addr := 0, viper := createViper "SC1" } ∧
      Environment.GetString goCaseExcerpt (scopeEnv stateScopeNoFile "scope1")
        stateScopeNoFile.environ "foo" = .ok "" ∧
      scopeEnv (step stateScopeNoFile (.loadEnv "X" "env/scope.env")) "scope1"
        = scopeEnv stateScopeNoFile "scope1" ∧
      Environment.GetString goCaseExcerpt (scopeEnv stateScopeNoFile "scope1")
        (step stateScopeNoFile (.loadEnv "X" "env/scope.env")).environ "foo" = .ok "FOO" ∧
      Environment.GetString goCaseExcerpt (scopeEnv stateScopeNoFile "scope1")
        (step stateScopeNoFile (.loadScopedEnv "scope2" "SC2" "env/scope.env")).environ "foo"
        = .ok "FOO" ∧
      Environment.GetString goCaseExcerpt (scopeEnv stateScopeNoFile "scope1")
        (step stateScopeNoFile
          (.newConfig { Prefix := "X", ConfigPath := "env/scope.env" })).environ "foo"
        = .ok "FOO" := by
  refine ⟨by decide, rfl, by decide, rfl, rfl, rfl⟩

/-- C9, amended: no call modifies an `Environment` or a registry entry, but an
`Environment` reads the process environment at the time of the lookup, and loading a
dotenv file sets the variables that the process environment does not hold yet. So the
value an `Environment` returns for `K` is the same before and after a later `LoadEnv`,
`LoadScopedEnv`, `NewConfig` or `Scope` call whenever the variable `K` resolves to (the
upper-cased prefix, "_" and lower-cased key, by the case tables in force) is already in
the process environment, or the call has an empty path, or its file is missing, does not
parse, or does not define that variable. -/
theorem lookup_stable (t : CaseTables) (s : State) (op : Op) (e : Environment) (K : String)
    (h : mapGet s.environ (e.viper.envName t K) ≠ none ∨ op.path = "" ∨
      ∀ m, mapGet s.files op.path = some (DotEnvFile.parsed m) →
        mapGet m (e.viper.envName t K) = none) :
    e.viper.Get t (step s op).environ K = e.viper.Get t s.environ K ∧
      Environment.Get t (some e) (step s op).environ K
        = Environment.Get t (some e) s.environ K ∧
      Environment.GetString t (some e) (step s op).environ K
        = Environment.GetString t (some e) s.environ K ∧
      (∀ k sc, mapGet s.scopes k = some sc → mapGet (step s op).scopes k = some sc) := by
  have hvar : mapGet (step s op).environ (e.viper.envName t K)
      = mapGet s.environ (e.viper.envName t K) := by
    rcases step_environ s op with he | he
    · rw [he]
    · rw [he]
      rcases loadDotEnv_environ s op.path with hl | ⟨m, hp, hm, hl⟩
      · rw [hl]
      · rw [hl]
        apply mapGet_foldl_setIfAbsent
        rcases h with h | h | h
        · exact Or.inl h
        · exact absurd h hp
        · exact Or.inr (h m hm)
  have hget : e.viper.Get t (step s op).environ K = e.viper.Get t s.environ K := by
    simp only [Viper.Get, Viper.getEnv, hvar]
  refine ⟨hget, ?_, ?_, fun k sc hk => step_keeps_entry s op k sc hk⟩
  · simp only [Environment.Get, Environment.deref, Except.map, hget]
  · simp only [Environment.GetString, Environment.deref, Except.map, Viper.GetString, hget]

/-- Witness for the amended C9: `SC1_FOO` is not in `env/dummy.env`, so loading that file
does not change what the scope with prefix "SC1" returns for "foo". -/
theorem lookup_stable_witness :
    (∀ m, mapGet stateScopeNoFile.files (Op.loadEnv "MTZ" "env/dummy.env").path
        = some (DotEnvFile.parsed m) →
        mapGet m ((createViper "SC1").envName goCaseExcerpt "foo") = none) ∧
      Environment.GetString goCaseExcerpt (some { addr := 0, viper := createViper "SC1" })
          (step stateScopeNoFile (.loadEnv "MTZ" "env/dummy.env")).environ "foo"
        = Environment.GetString goCaseExcerpt (some { addr := 0, viper := createViper "SC1" })
            stateScopeNoFile.environ "foo" :=
  have hfile : ∀ m, mapGet stateScopeNoFile.files (Op.loadEnv "MTZ" "env/dummy.env").path
      = some (DotEnvFile.parsed m) →
      mapGet m ((createViper "SC1").envName goCaseExcerpt "foo") = none := by
    intro m hm
    have hm' : some (DotEnvFile.parsed [("MTZ_DUMMY", "DUMMY")]) = some (DotEnvFile.parsed m) := hm
    injection hm' with hm'
    injection hm' with hm'
    subst hm'
    decide
  ⟨hfile,
    (lookup_stable goCaseExcerpt stateScopeNoFile (.loadEnv "MTZ" "env/dummy.env")
      { addr := 0, viper := createViper "SC1" } "foo" (Or.inr (Or.inr hfile))).2.2.1⟩

end GolangConfig
